import Mathlib

/-!
Verification of `gogenerator/args/args.go` from lack-io/gogogen.

The Go code is embedded shallowly:
* Go strings and `[]byte` values are modelled as Lean `String`
  (a sequence of `Char`); all the byte sequences the code manipulates are
  plain text, so the identification is faithful.
* Go standard-library string and path functions (`strings.HasPrefix`,
  `strings.Replace`, `path.Clean`, `path.Base`, `filepath.Join`, ...) are
  re-implemented below following their documented Unix semantics.
* Ambient process state (the `GOPATH` environment variable, `os.Args[0]`,
  the current year, the filesystem) is passed in as explicit parameters.
* The collaborator packages of this repository that are not part of the
  sources under verification (`parser`, `generator`, `namer`, `types`) are
  modelled from the specification; each such definition carries a
  `Modelled from the spec:` comment.
-/

namespace Gogogen

/-! ## Go standard-library string helpers -/

/-- Go `strings.HasPrefix(s, pre)`: true when `pre` is a string prefix of `s`. -/
def hasPrefixStr (s pre : String) : Bool :=
  pre.data.isPrefixOf s.data

/-- Go `strings.HasSuffix(s, suf)`: true when `suf` is a string suffix of `s`. -/
def hasSuffixStr (s suf : String) : Bool :=
  suf.data.isSuffixOf s.data

/-- Go `strings.TrimPrefix(s, pre)`: drops a leading `pre` when present. -/
def trimPrefixStr (s pre : String) : String :=
  if hasPrefixStr s pre then String.mk (s.data.drop pre.data.length) else s

/-- Go `strings.TrimSuffix(s, suf)`: drops a trailing `suf` when present. -/
def trimSuffixStr (s suf : String) : String :=
  if hasSuffixStr s suf then String.mk (s.data.take (s.data.length - suf.data.length)) else s

/-- Recursion core of `replaceAll`, structural on a fuel argument so that it
reduces inside the kernel. One unit of fuel is spent per emitted position;
each step removes at least one input character, so fuel `s.length` always
suffices and the out-of-fuel branch is unreachable from `replaceAll`. -/
def replaceAllAux (pat rep : List Char) : Nat → List Char → List Char
  | _, [] => []
  | 0, l => l
  | fuel + 1, c :: rest =>
    if pat ≠ [] ∧ pat.isPrefixOf (c :: rest) then
      rep ++ replaceAllAux pat rep fuel (rest.drop (pat.length - 1))
    else
      c :: replaceAllAux pat rep fuel rest

/-- Core of Go `strings.Replace(s, pat, rep, -1)` and
`bytes.Replace(s, pat, rep, -1)` on character lists: replace every
non-overlapping occurrence of `pat` in `s` by `rep`, scanning left to right.
The Go functions are only ever called here with a non-empty pattern; for an
empty pattern this definition leaves the input unchanged. -/
def replaceAll (pat rep s : List Char) : List Char :=
  replaceAllAux pat rep s.length s

/-- Go `strings.Replace(s, pat, rep, -1)` at the `String` level. -/
def goReplace (s pat rep : String) : String :=
  String.mk (replaceAll pat.data rep.data s.data)

/-! ## Go standard-library path helpers (Unix path separator) -/

/-- One step of Go `path.Clean`: push one path component onto the (reversed)
stack of output components. Empty and `.` components are dropped; `..` pops
the previous component when possible, is kept when the path is relative and
nothing can be popped, and is dropped at the root of a rooted path. -/
def cleanPush (rooted : Bool) (out : List String) (comp : String) : List String :=
  if comp = "" ∨ comp = "." then out
  else if comp = ".." then
    match out with
    | [] => if rooted then [] else [comp]
    | o :: os => if o = ".." then comp :: out else os
  else comp :: out

/-- Go `path.Clean` (equivalently `filepath.Clean` on Unix). -/
def pathClean (p : String) : String :=
  if p = "" then "."
  else
    let rooted :=
      match p.data with
      | c :: _ => c == '/'
      | [] => false
    let comps := (p.data.splitOn '/').map String.mk
    let body := String.intercalate "/" ((comps.foldl (cleanPush rooted) []).reverse)
    if rooted then (if body = "" then "/" else "/" ++ body)
    else (if body = "" then "." else body)

/-- Go `filepath.Join` on Unix: drop leading empty elements, join the rest
with `/`, and clean the result; all-empty input yields the empty string. -/
def filepathJoin : List String → String
  | [] => ""
  | e :: rest => if e = "" then filepathJoin rest else pathClean (String.intercalate "/" (e :: rest))

/-- Go `path.Base`: the last element of the path after dropping trailing
slashes; `"."` for the empty path, `"/"` for a path of only slashes. -/
def pathBase (p : String) : String :=
  if p = "" then "."
  else
    let r := p.data.reverse.dropWhile (fun c => c == '/')
    if r = [] then "/"
    else String.mk ((r.takeWhile (fun c => c != '/')).reverse)

/-! ## The data model of args.go -/

/-- Modelled from the spec: a discovered package (`types.Package`). Only
its path is consulted by this package. -/
structure Package where
  Path : String
deriving DecidableEq

/-- Structure `GeneratorArgs` from args.go: the configuration record for one
generation run. The opaque `CustomArgs interface\x7b\x7d` payload is never
inspected by this package and is modelled as `Unit`. -/
structure GeneratorArgs where
  InputDirs : List String
  OutputBase : String
  OutputPackagePath : String
  OutputFileBaseName : String
  GoHeaderFilePath : String
  GeneratedByCommentTemplate : String
  VerifyOnly : Bool
  IncludeTestFile : Bool
  GeneratedBuildTag : String
  CustomArgs : Unit
  defaultCommandLineFlags : Bool

/-- The Go zero value of `GeneratorArgs`. -/
def zeroArgs : GeneratorArgs :=
  { InputDirs := []
    OutputBase := ""
    OutputPackagePath := ""
    OutputFileBaseName := ""
    GoHeaderFilePath := ""
    GeneratedByCommentTemplate := ""
    VerifyOnly := false
    IncludeTestFile := false
    GeneratedBuildTag := ""
    CustomArgs := ()
    defaultCommandLineFlags := false }

/-- Function `DefaultSourceTree` from args.go: the `src` directory of the first entry
of `$GOPATH`, or `"./"` when that entry is absent or empty. The environment
variable's value (empty string when unset, as `os.Getenv` reports) and the
platform list separator are explicit parameters. -/
def DefaultSourceTree (gopath : String) (listSep : Char) : String :=
  let paths := (gopath.data.splitOn listSep).map String.mk
  match paths with
  | [] => "./"
  | p0 :: _ => if p0.length > 0 then filepathJoin [p0, "src"] else "./"

/-- Function `Default()` from args.go: a `GeneratorArgs` with computed defaults. -/
def Default (gopath : String) (listSep : Char) : GeneratorArgs :=
  { zeroArgs with
    OutputBase := DefaultSourceTree gopath listSep
    GoHeaderFilePath :=
      filepathJoin [DefaultSourceTree gopath listSep,
        "github.com/lack-io/gogogen/gogenerator/boilerplate/boilerplate.go.txt"]
    GeneratedBuildTag := "ignore_autogenerated"
    GeneratedByCommentTemplate := "// Code generated by GENERATOR_NAME. Do NOT EDIT."
    defaultCommandLineFlags := true }

/-- Method `WithoutDefaultFlagParsing` from args.go (the Go method mutates in
place and returns the receiver; here it returns the updated record). -/
def GeneratorArgs.WithoutDefaultFlagParsing (g : GeneratorArgs) : GeneratorArgs :=
  { g with defaultCommandLineFlags := false }

/-- Method `LoadGoBoilerplate` from args.go. `readResult` is the outcome of
`ioutil.ReadFile(g.GoHeaderFilePath)` (errors carry their message),
`year` is `time.Now().UTC().Year()`, and `arg0` is `os.Args[0]`. -/
def GeneratorArgs.LoadGoBoilerplate (g : GeneratorArgs)
    (readResult : Except String String) (year : Nat) (arg0 : String) :
    Except String String :=
  match readResult with
  | .error e => .error e
  | .ok b0 =>
    let b := goReplace b0 "YEAR" (Nat.repr year)
    let b :=
      if g.GeneratedByCommentTemplate ≠ "" then
        if b.length ≠ 0 then
          let generatorName := pathBase arg0
          let generatedByComment :=
            goReplace g.GeneratedByCommentTemplate "GENERATOR_NAME" generatorName
          b ++ "\n" ++ generatedByComment ++ "\n\n"
        else b
      else b
    .ok b

/-- Normalisation applied to one configured input root inside
`InputIncludes`: strip a trailing `"..."` marker when present, then strip a
leading `"./vendor/"` when present. -/
def inputDirNorm (dir : String) : String :=
  let d := dir
  let d := if hasSuffixStr d "..." then trimSuffixStr d "..." else d
  let d := if hasPrefixStr d "./vendor/" then trimPrefixStr d "./vendor/" else d
  d

/-- Method `InputIncludes` from args.go: true when the package's path has some
normalised input root as a string prefix (first match wins). -/
def GeneratorArgs.InputIncludes (g : GeneratorArgs) (p : Package) : Bool :=
  g.InputDirs.any (fun dir => hasPrefixStr p.Path (inputDirNorm dir))

/-! ## Spec-modelled collaborators: the discovery builder -/

/-- Modelled from the spec: one registration made against the discovery
builder — either a single directory or a recursive subtree. -/
inductive RegCall where
  | dir (d : String)
  | dirRecursive (d : String)
deriving DecidableEq

/-- Modelled from the spec: the package-discovery builder (`parser.Builder`).
It records the test-file flag, the build tags registered as ignored, and the
ordered list of directory registrations; its parsing internals are outside
this package. -/
structure Builder where
  IncludeTestFiles : Bool
  buildTags : List String
  registrations : List RegCall
deriving DecidableEq

/-- Modelled from the spec: `parser.New()`, a fresh discovery builder. -/
def parserNew : Builder :=
  { IncludeTestFiles := false, buildTags := [], registrations := [] }

/-- Modelled from the spec: `AddBuildTags` registers a build tag to ignore. -/
def addBuildTags (b : Builder) (tag : String) : Builder :=
  { b with buildTags := b.buildTags ++ [tag] }

/-- Modelled from the spec: the filesystem-dependent outcome of the
builder's two registration calls. For a given directory, `addDirErr d`
(resp. `addDirRecursiveErr d`) is `some e` when `AddDir d` (resp.
`AddDirRecursive d`) would fail with error message `e`, and `none` when it
would succeed. -/
structure DiscoveryEnv where
  addDirErr : String → Option String
  addDirRecursiveErr : String → Option String

/-- Modelled from the spec: `Builder.AddDir`, registering one directory. -/
def addDir (env : DiscoveryEnv) (b : Builder) (d : String) : Except String Builder :=
  match env.addDirErr d with
  | some e => .error e
  | none => .ok { b with registrations := b.registrations ++ [RegCall.dir d] }

/-- Modelled from the spec: `Builder.AddDirRecursive`, registering a
directory subtree. -/
def addDirRecursive (env : DiscoveryEnv) (b : Builder) (d : String) : Except String Builder :=
  match env.addDirRecursiveErr d with
  | some e => .error e
  | none => .ok { b with registrations := b.registrations ++ [RegCall.dirRecursive d] }

/-- The input-directory loop of `NewBuilder` from args.go: register each
input specification in order, stopping at the first failure with the error
wrapped as `fmt.Errorf("unable to add directory %q: %v", d, err)` does
(Go `%q` quoting is modelled as plain surrounding double quotes, which is
exact for paths without characters needing escapes). -/
def registerInputDirs (env : DiscoveryEnv) : Builder → List String → Except String Builder
  | b, [] => .ok b
  | b, d :: rest =>
    let res :=
      if hasSuffixStr d "/..." then addDirRecursive env b (trimSuffixStr d "/...")
      else addDir env b d
    match res with
    | .error e => .error ("unable to add directory \"" ++ d ++ "\": " ++ e)
    | .ok b2 => registerInputDirs env b2 rest

/-- Method `NewBuilder` from args.go: a fresh builder with the test-file flag and
the generated-code build tag set, populated with the input directories. -/
def GeneratorArgs.NewBuilder (g : GeneratorArgs) (env : DiscoveryEnv) : Except String Builder :=
  let b := parserNew
  let b := { b with IncludeTestFiles := g.IncludeTestFile }
  let b := addBuildTags b g.GeneratedBuildTag
  registerInputDirs env b g.InputDirs

/-! ## Spec-modelled collaborators: the generation context and Execute -/

/-- Modelled from the spec: a generation package produced by the caller's
selection callback (`generator.Package`); opaque to the driver. -/
structure GenPackage where
  id : Nat
deriving DecidableEq

/-- Modelled from the spec: `generator.Packages`, a list of generation
packages. -/
abbrev Packages := List GenPackage

/-- Modelled from the spec: the logical names of the caller-provided naming
systems (`namer.NameSystems`); their implementations are opaque here. -/
abbrev NameSystems := List String

/-- Modelled from the spec: the generation context (`generator.Context`).
Only its verify-only flag is touched by the driver. -/
structure Context where
  Verify : Bool
deriving DecidableEq

/-- Modelled from the spec: the behaviour of the external collaborators that
`Execute` drives — flag parsing, directory registration, context
construction, and package execution. `executePackagesErr c base ps` is the
error result of `c.ExecutePackages(base, ps)` (`none` on success). -/
structure ExecEnv where
  flagParse : GeneratorArgs → GeneratorArgs
  addDirErr : String → Option String
  addDirRecursiveErr : String → Option String
  newContext : Builder → NameSystems → String → Except String Context
  executePackagesErr : Context → String → Packages → Option String

/-- Method `Execute` from args.go. Besides the Go return value, the result also
carries the trace of `ExecutePackages` invocations (output base and package
set of each call), so that theorems can speak about what was executed. The
flag stage models a successful `RunAndExitOnError` as `env.flagParse`; the
parse-failure path terminates the Go process and has no return value to
model. -/
def GeneratorArgs.Execute (g0 : GeneratorArgs) (env : ExecEnv)
    (nameSystems : NameSystems) (defaultSystem : String)
    (pkgs : Context → GeneratorArgs → Packages) :
    Except String Unit × List (String × Packages) :=
  let g := if g0.defaultCommandLineFlags then env.flagParse g0 else g0
  match g.NewBuilder { addDirErr := env.addDirErr, addDirRecursiveErr := env.addDirRecursiveErr } with
  | .error e => (.error e, [])
  | .ok b0 =>
    let b := { b0 with IncludeTestFiles := g.IncludeTestFile }
    match env.newContext b nameSystems defaultSystem with
    | .error e => (.error ("failed making a context: " ++ e), [])
    | .ok c0 =>
      let c := { c0 with Verify := g.VerifyOnly }
      let packages := pkgs c g
      match env.executePackagesErr c g.OutputBase packages with
      | some e => (.error ("failed executing generator: " ++ e), [(g.OutputBase, packages)])
      | none => (.ok (), [(g.OutputBase, packages)])

/-! ## Helper lemmas about replaceAll -/

/-- When the pattern does not occur in the input, replacement is the
identity, whatever the fuel. -/
theorem replaceAllAux_eq_self (pat rep : List Char) :
    ∀ fuel s, ¬ pat <:+: s → replaceAllAux pat rep fuel s = s := by
  intro fuel
  induction fuel with
  | zero => intro s h; cases s <;> simp [replaceAllAux]
  | succ n ih =>
    intro s h
    cases s with
    | nil => simp [replaceAllAux]
    | cons c rest =>
      rw [replaceAllAux, if_neg, ih rest (fun hi => h ( List.infix_cons_iff.mpr (Or.inr hi)))]
      rintro ⟨hne, hpre⟩
      exact h ( List.IsPrefix.isInfix ( List.isPrefixOf_iff_prefix.mp hpre))

/-- Any prefix of the replacement output that avoids the characters of the
replacement string is a prefix of the original input. -/
theorem replaceAllAux_pre (pat rep : List Char) (hrep : rep ≠ []) :
    ∀ fuel s q, q <+: replaceAllAux pat rep fuel s → (∀ c ∈ q, c ∉ rep) → q <+: s := by
  intro fuel
  induction fuel with
  | zero =>
    intro s q hq hfree
    cases s with
    | nil => simpa [replaceAllAux] using hq
    | cons c rest => simpa [replaceAllAux] using hq
  | succ n ih =>
    intro s q hq hfree
    cases s with
    | nil => simpa [replaceAllAux] using hq
    | cons c rest =>
      rw [replaceAllAux] at hq
      by_cases hcond : pat ≠ [] ∧ pat.isPrefixOf (c :: rest) = true
      · rw [if_pos hcond] at hq
        cases q with
        | nil => exact List.nil_prefix
        | cons d q2 =>
          obtain ⟨r0, rr, hrw⟩ : ∃ r0 rr, rep = r0 :: rr := by
            cases rep with
            | nil => exact absurd rfl hrep
            | cons r0 rr => exact ⟨r0, rr, rfl⟩
          rw [hrw, List.cons_append] at hq
          rcases List.cons_prefix_cons.mp hq with ⟨hd, -⟩
          exact absurd (hrw ▸ (hd ▸ List.mem_cons_self r0 rr))
            (hfree d (List.mem_cons_self d q2))
      · rw [if_neg hcond] at hq
        cases q with
        | nil => exact List.nil_prefix
        | cons d q2 =>
          rcases List.cons_prefix_cons.mp hq with ⟨hd, hq2⟩
          have hq2rest : q2 <+: rest :=
            ih rest q2 hq2 (fun ch hch => hfree ch (List.mem_cons_of_mem d hch))
          exact List.cons_prefix_cons.mpr ⟨hd, hq2rest⟩

/-- An occurrence of a non-empty pattern inside `xs ++ ys`, where no
character of `xs` occurs in the pattern, lies entirely inside `ys`. -/
theorem infix_right_of_disjoint (pat : List Char) (hne : pat ≠ []) :
    ∀ xs ys : List Char, (∀ c ∈ xs, c ∉ pat) → pat <:+: xs ++ ys → pat <:+: ys := by
  intro xs
  induction xs with
  | nil =>
    intro ys _ h
    rw [List.nil_append] at h
    exact h
  | cons a xs2 ih =>
    intro ys hx h
    rw [List.cons_append] at h
    rcases List.infix_cons_iff.mp h with hp | hi
    · obtain ⟨p0, pt, hrw⟩ : ∃ p0 pt, pat = p0 :: pt := by
        cases pat with
        | nil => exact absurd rfl hne
        | cons p0 pt => exact ⟨p0, pt, rfl⟩
      rw [hrw] at hp
      rcases List.cons_prefix_cons.mp hp with ⟨hp0, -⟩
      exact absurd (hrw ▸ (hp0 ▸ List.mem_cons_self p0 pt))
        (hx a (List.mem_cons_self a xs2))
    · exact ih ys (fun c hc => hx c (List.mem_cons_of_mem a hc)) hi

/-- After replacement with sufficient fuel, a non-empty pattern whose
characters are absent from the non-empty replacement string no longer
occurs in the output. -/
theorem replaceAllAux_not_contains (pat rep : List Char) (hne : pat ≠ []) (hrep : rep ≠ [])
    (hdisj : ∀ c ∈ rep, c ∉ pat) :
    ∀ fuel s, s.length ≤ fuel → ¬ pat <:+: replaceAllAux pat rep fuel s := by
  intro fuel
  induction fuel with
  | zero =>
    intro s hs h
    have hnil : s = [] := List.length_eq_zero.mp (Nat.le_zero.mp hs)
    subst hnil
    rw [replaceAllAux] at h
    exact hne (List.eq_nil_of_infix_nil h)
  | succ n ih =>
    intro s hs h
    cases s with
    | nil =>
      rw [replaceAllAux] at h
      exact hne (List.eq_nil_of_infix_nil h)
    | cons c rest =>
      rw [replaceAllAux] at h
      have hrestlen : rest.length ≤ n := by
        simp only [List.length_cons] at hs
        omega
      by_cases hcond : pat ≠ [] ∧ pat.isPrefixOf (c :: rest) = true
      · rw [if_pos hcond] at h
        have h2 := infix_right_of_disjoint pat hne rep _ hdisj h
        exact ih (rest.drop (pat.length - 1))
          (le_trans (by simp only [List.length_drop]; omega) hrestlen) h2
      · rw [if_neg hcond] at h
        rcases List.infix_cons_iff.mp h with hp | hi
        · obtain ⟨p0, pt, hrw⟩ : ∃ p0 pt, pat = p0 :: pt := by
            cases pat with
            | nil => exact absurd rfl hne
            | cons p0 pt => exact ⟨p0, pt, rfl⟩
          rw [hrw] at hp
          rcases List.cons_prefix_cons.mp hp with ⟨hp0, hpt⟩
          have hptfree : ∀ ch ∈ pt, ch ∉ rep := by
            intro ch hch hchrep
            exact hdisj ch hchrep (hrw ▸ List.mem_cons_of_mem p0 hch)
          rw [← hrw] at hpt
          have hptrest : pt <+: rest := replaceAllAux_pre pat rep hrep n rest pt hpt hptfree
          have hpre : pat <+: c :: rest := by
            rw [hrw]
            exact List.cons_prefix_cons.mpr ⟨hp0, hptrest⟩
          exact hcond ⟨hne, List.isPrefixOf_iff_prefix.mpr hpre⟩
        · exact ih rest hrestlen hi

/-- `replaceAll` is the identity when the pattern does not occur. -/
theorem replaceAll_eq_self (pat rep s : List Char) (h : ¬ pat <:+: s) :
    replaceAll pat rep s = s :=
  replaceAllAux_eq_self pat rep s.length s h

/-- `replaceAll` removes every occurrence of the pattern, provided the
pattern is non-empty and shares no character with the non-empty
replacement. -/
theorem replaceAll_not_contains (pat rep s : List Char) (hne : pat ≠ []) (hrep : rep ≠ [])
    (hdisj : ∀ c ∈ rep, c ∉ pat) : ¬ pat <:+: replaceAll pat rep s :=
  replaceAllAux_not_contains pat rep hne hrep hdisj s.length s (le_refl _)

/-! ## Helper lemmas about NewBuilder's registration loop -/

/-- The registration that `NewBuilder` performs for one input
specification: recursive discovery with the `"/..."` marker stripped when
the marker is present, single-directory discovery on the unchanged
specification otherwise. -/
def registrationOf (d : String) : RegCall :=
  if hasSuffixStr d "/..." then RegCall.dirRecursive (trimSuffixStr d "/...") else RegCall.dir d

/-- The outcome the discovery environment assigns to the registration call
that `NewBuilder` makes for one input specification. -/
def registerOutcome (env : DiscoveryEnv) (d : String) : Option String :=
  if hasSuffixStr d "/..." then env.addDirRecursiveErr (trimSuffixStr d "/...") else env.addDirErr d

/-- When every registration succeeds, the loop appends exactly the
registrations of the input specifications, in list order. -/
theorem registerInputDirs_ok (env : DiscoveryEnv) :
    ∀ ds, (∀ d ∈ ds, registerOutcome env d = none) → ∀ b,
      registerInputDirs env b ds =
        .ok { b with registrations := b.registrations ++ ds.map registrationOf } := by
  intro ds
  induction ds with
  | nil =>
    intro _ b
    simp [registerInputDirs]
  | cons d rest ih =>
    intro hok b
    have hd := hok d (List.mem_cons_self d rest)
    have hrest : ∀ d2 ∈ rest, registerOutcome env d2 = none :=
      fun d2 h2 => hok d2 (List.mem_cons_of_mem d h2)
    rw [registerInputDirs]
    by_cases hsuf : hasSuffixStr d "/..." = true
    · rw [registerOutcome, if_pos hsuf] at hd
      simp only [hsuf, if_true, addDirRecursive, hd]
      rw [ih hrest]
      simp [registrationOf, hsuf, List.append_assoc]
    · rw [registerOutcome, if_neg hsuf] at hd
      simp only [hsuf, if_false, Bool.false_eq_true, addDir, hd]
      rw [ih hrest]
      simp [registrationOf, hsuf, List.append_assoc]

/-- When every registration before `d` succeeds and the registration of `d`
fails with message `msg`, the loop stops at `d` with the wrapped error,
whatever comes after `d`. -/
theorem registerInputDirs_err (env : DiscoveryEnv) (d msg : String)
    (hfail : registerOutcome env d = some msg) :
    ∀ pre, (∀ d2 ∈ pre, registerOutcome env d2 = none) → ∀ b post,
      registerInputDirs env b (pre ++ d :: post) =
        .error ("unable to add directory \"" ++ d ++ "\": " ++ msg) := by
  intro pre
  induction pre with
  | nil =>
    intro _ b post
    rw [List.nil_append, registerInputDirs]
    by_cases hsuf : hasSuffixStr d "/..." = true
    · rw [registerOutcome, if_pos hsuf] at hfail
      simp [hsuf, addDirRecursive, hfail]
    · rw [registerOutcome, if_neg hsuf] at hfail
      simp [hsuf, addDir, hfail]
  | cons a pre2 ih =>
    intro hok b post
    have ha := hok a (List.mem_cons_self a pre2)
    have hpre2 : ∀ d2 ∈ pre2, registerOutcome env d2 = none :=
      fun d2 h2 => hok d2 (List.mem_cons_of_mem a h2)
    rw [List.cons_append, registerInputDirs]
    by_cases hsuf : hasSuffixStr a "/..." = true
    · rw [registerOutcome, if_pos hsuf] at ha
      simp only [hsuf, if_true, addDirRecursive, ha]
      exact ih hpre2 _ post
    · rw [registerOutcome, if_neg hsuf] at ha
      simp only [hsuf, if_false, Bool.false_eq_true, addDir, ha]
      exact ih hpre2 _ post

/-! ## General-purpose helper lemmas -/

/-- A Go string has length zero exactly when it is empty. -/
theorem strLength_eq_zero_iff (s : String) : s.length = 0 ↔ s = "" := by
  cases s with
  | mk l => simp [String.ext_iff]

/-! ## Claim theorems -/

/-- C1: `InputIncludes(p)` is a raw string-prefix membership test over the
configured input roots: each root is normalised by `inputDirNorm` (strip a
trailing `"..."` marker, then strip a leading `"./vendor/"`), and the test
succeeds exactly when some root's normalisation is a string prefix of the
package's path. For root `"a/b"` it accepts path `"a/b/c"`, accepts path
`"a/bxyz"`, and rejects path `"x/a/b"`. -/
theorem c1_inputIncludes_raw_string_prefix_test :
    (∀ (g : GeneratorArgs) (p : Package),
        g.InputIncludes p = true ↔
          ∃ dir ∈ g.InputDirs, hasPrefixStr p.Path (inputDirNorm dir) = true) ∧
    GeneratorArgs.InputIncludes { zeroArgs with InputDirs := ["a/b"] } ⟨"a/b/c"⟩ = true ∧
    GeneratorArgs.InputIncludes { zeroArgs with InputDirs := ["a/b"] } ⟨"a/bxyz"⟩ = true ∧
    GeneratorArgs.InputIncludes { zeroArgs with InputDirs := ["a/b"] } ⟨"x/a/b"⟩ = false := by
  refine ⟨?_, by decide, by decide, by decide⟩
  intro g p
  simp [GeneratorArgs.InputIncludes, List.any_eq_true]

/-- Witness for C1: the membership test applied at a concrete model. -/
theorem c1_witness :
    GeneratorArgs.InputIncludes { zeroArgs with InputDirs := ["a/b"] } ⟨"a/b/c"⟩ = true :=
  (c1_inputIncludes_raw_string_prefix_test.1
      { zeroArgs with InputDirs := ["a/b"] } ⟨"a/b/c"⟩).mpr ⟨"a/b", by decide, by decide⟩

/-- C10: any configured input root that normalises to the empty string —
for instance `"..."`, or `"./vendor/..."` — makes `InputIncludes` accept
every package, since the empty string is a prefix of every path. -/
theorem c10_empty_normalized_root_matches_everything :
    (∀ (g : GeneratorArgs) (p : Package) (dir : String),
        dir ∈ g.InputDirs → inputDirNorm dir = "" → g.InputIncludes p = true) ∧
    inputDirNorm "..." = "" ∧ inputDirNorm "./vendor/..." = "" := by
  refine ⟨?_, by decide, by decide⟩
  intro g p dir hmem hnorm
  simp only [GeneratorArgs.InputIncludes, List.any_eq_true]
  refine ⟨dir, hmem, ?_⟩
  rw [hnorm]
  simp [hasPrefixStr]

/-- Witness for C10: with the root `"..."` configured, an arbitrary
concrete package is accepted. -/
theorem c10_witness :
    GeneratorArgs.InputIncludes { zeroArgs with InputDirs := ["..."] } ⟨"any/pkg"⟩ = true :=
  c10_empty_normalized_root_matches_everything.1
    { zeroArgs with InputDirs := ["..."] } ⟨"any/pkg"⟩ "..." (by decide) (by decide)

/-- C9: `DefaultSourceTree` returns the first `$GOPATH` entry joined with
`"src"` when that entry is non-empty, and `"./"` when the variable is empty
or its first segment is empty; concretely it maps `""` to `"./"` and
`"X:Y"` (with separator `':'`) to `"X/src"`. -/
theorem c9_defaultSourceTree :
    (∀ (gopath : String) (listSep : Char) (p0 : List Char) (rest : List (List Char)),
        gopath.data.splitOn listSep = p0 :: rest → p0 ≠ [] →
        DefaultSourceTree gopath listSep = filepathJoin [ String.mk p0, "src"]) ∧
    (∀ (gopath : String) (listSep : Char) (rest : List (List Char)),
        gopath.data.splitOn listSep = [] :: rest →
        DefaultSourceTree gopath listSep = "./") ∧
    DefaultSourceTree "" ':' = "./" ∧
    DefaultSourceTree "X:Y" ':' = "X/src" := by
  refine ⟨?_, ?_, by decide, by decide⟩
  · intro gopath listSep p0 rest hsplit hne
    have hlen : ( String.mk p0).length > 0 := by
      rw [String.length_mk]
      exact List.length_pos.mpr hne
    simp only [DefaultSourceTree, hsplit, List.map_cons]
    rw [if_pos hlen]
  · intro gopath listSep rest hsplit
    simp only [DefaultSourceTree, hsplit, List.map_cons]
    rfl

/-- Witness for C9: both hypothetical clauses applied at `"A:B"`. -/
theorem c9_witness :
    DefaultSourceTree "A:B" ':' = filepathJoin [ String.mk ['A'], "src"] ∧
    DefaultSourceTree ":B" ':' = "./" :=
  ⟨c9_defaultSourceTree.1 "A:B" ':' ['A'] [['B']] (by decide) (by decide),
   c9_defaultSourceTree.2.1 ":B" ':' [['B']] (by decide)⟩

/-- C6: when reading the header file fails, `LoadGoBoilerplate` returns the
read error verbatim, with no content and no substitution or appending. -/
theorem c6_loadGoBoilerplate_read_error (g : GeneratorArgs) (e : String)
    (year : Nat) (arg0 : String) :
    g.LoadGoBoilerplate (.error e) year arg0 = .error e := rfl

/-- Witness for C6: a concrete read failure propagated verbatim. -/
theorem c6_witness :
    GeneratorArgs.LoadGoBoilerplate zeroArgs (.error "open boiler.txt: no such file") 2026 "gen" =
      .error "open boiler.txt: no such file" :=
  c6_loadGoBoilerplate_read_error zeroArgs "open boiler.txt: no such file" 2026 "gen"

/-- C4: when the generated-by template is empty, or the year-substituted
header content is empty, `LoadGoBoilerplate` returns exactly the
year-substituted header bytes, with nothing appended. -/
theorem c4_loadGoBoilerplate_no_append (g : GeneratorArgs) (b : String)
    (year : Nat) (arg0 : String)
    (h : g.GeneratedByCommentTemplate = "" ∨ goReplace b "YEAR" (Nat.repr year) = "") :
    g.LoadGoBoilerplate (.ok b) year arg0 = .ok (goReplace b "YEAR" (Nat.repr year)) := by
  unfold GeneratorArgs.LoadGoBoilerplate
  rcases h with h | h
  · simp [h]
  · simp [h]

/-- Witness for C4: an empty template at a concrete header. -/
theorem c4_witness :
    GeneratorArgs.LoadGoBoilerplate zeroArgs (.ok "hi") 2026 "gen" =
      .ok (goReplace "hi" "YEAR" (Nat.repr 2026)) :=
  c4_loadGoBoilerplate_no_append zeroArgs "hi" 2026 "gen" (Or.inl rfl)

/-- C5: when the generated-by template and the year-substituted header are
both non-empty, the output is the header, a newline, the template with
`"GENERATOR_NAME"` replaced by the base name of the invoking program's
first argument, a newline, and a further blank line. -/
theorem c5_loadGoBoilerplate_append (g : GeneratorArgs) (b : String)
    (year : Nat) (arg0 : String)
    (ht : g.GeneratedByCommentTemplate ≠ "")
    (hb : goReplace b "YEAR" (Nat.repr year) ≠ "") :
    g.LoadGoBoilerplate (.ok b) year arg0 =
      .ok (goReplace b "YEAR" (Nat.repr year) ++ "\n" ++
        goReplace g.GeneratedByCommentTemplate "GENERATOR_NAME" (pathBase arg0) ++ "\n\n") := by
  unfold GeneratorArgs.LoadGoBoilerplate
  have hlen : (goReplace b "YEAR" (Nat.repr year)).length ≠ 0 :=
    fun h0 => hb ((strLength_eq_zero_iff _).mp h0)
  simp [ht, hlen, String.append_assoc]

/-- Witness for C5: a concrete template and header. -/
theorem c5_witness :
    GeneratorArgs.LoadGoBoilerplate
        { zeroArgs with GeneratedByCommentTemplate := "// by GENERATOR_NAME." }
        (.ok "hdr") 2026 "/usr/bin/mygen" =
      .ok (goReplace "hdr" "YEAR" (Nat.repr 2026) ++ "\n" ++
        goReplace "// by GENERATOR_NAME." "GENERATOR_NAME" (pathBase "/usr/bin/mygen") ++ "\n\n") :=
  c5_loadGoBoilerplate_append
    { zeroArgs with GeneratedByCommentTemplate := "// by GENERATOR_NAME." }
    "hdr" 2026 "/usr/bin/mygen" (by decide) (by decide)

/-- Unfolding equation for `LoadGoBoilerplate` on a successful read. -/
theorem loadGoBoilerplate_ok (g : GeneratorArgs) (b : String) (year : Nat) (arg0 : String) :
    g.LoadGoBoilerplate (.ok b) year arg0 =
      .ok (if g.GeneratedByCommentTemplate ≠ "" then
            (if (goReplace b "YEAR" (Nat.repr year)).length ≠ 0 then
              goReplace b "YEAR" (Nat.repr year) ++ "\n" ++
                goReplace g.GeneratedByCommentTemplate "GENERATOR_NAME" (pathBase arg0) ++ "\n\n"
            else goReplace b "YEAR" (Nat.repr year))
          else goReplace b "YEAR" (Nat.repr year)) := rfl

/-- C3: `LoadGoBoilerplate` replaces every occurrence of `"YEAR"` in the
header with the decimal current-UTC-year string. First clause: a header
without `"YEAR"` passes through unchanged apart from the optional
generated-by suffix. Second clause: provided the rendered year is non-empty
and contains none of the letters of `"YEAR"` (true of every decimal
string), no occurrence of `"YEAR"` survives the substitution. Third clause:
a concrete header in which both occurrences are replaced by the same year
string. -/
theorem c3_loadGoBoilerplate_replaces_every_year :
    (∀ (g : GeneratorArgs) (b : String) (year : Nat) (arg0 : String),
        ¬ ("YEAR".data <:+: b.data) →
        g.LoadGoBoilerplate (.ok b) year arg0 =
          .ok (if g.GeneratedByCommentTemplate ≠ "" ∧ b ≠ "" then
                 b ++ "\n" ++
                   goReplace g.GeneratedByCommentTemplate "GENERATOR_NAME" (pathBase arg0) ++
                   "\n\n"
               else b)) ∧
    (∀ (b : String) (year : Nat),
        (Nat.repr year).data ≠ [] →
        (∀ c ∈ (Nat.repr year).data, c ∉ "YEAR".data) →
        ¬ ("YEAR".data <:+: (goReplace b "YEAR" (Nat.repr year)).data)) ∧
    goReplace "Copyright YEAR, YEAR Authors." "YEAR" "2026" =
      "Copyright 2026, 2026 Authors." := by
  refine ⟨?_, ?_, by decide⟩
  · intro g b year arg0 hno
    have hself : goReplace b "YEAR" (Nat.repr year) = b := by
      rw [goReplace, replaceAll_eq_self _ _ _ hno]
    rw [loadGoBoilerplate_ok, hself]
    by_cases ht : g.GeneratedByCommentTemplate = ""
    · simp [ht]
    · by_cases hb : b = ""
      · simp [ht, hb]
      · have hlen : b.length ≠ 0 := fun h0 => hb ((strLength_eq_zero_iff b).mp h0)
        simp [ht, hb, hlen, String.append_assoc]
  · intro b year hrep hdisj
    have := replaceAll_not_contains "YEAR".data (Nat.repr year).data b.data
      (by decide) hrep hdisj
    exact this

/-- Witness for C3: the pass-through clause at a concrete header without
`"YEAR"`, and the elimination clause at the concrete year 2026. -/
theorem c3_witness :
    GeneratorArgs.LoadGoBoilerplate zeroArgs (.ok "package foo\n") 2026 "mygen" =
      .ok "package foo\n" ∧
    ¬ ("YEAR".data <:+: (goReplace "Copyright YEAR." "YEAR" (Nat.repr 2026)).data) := by
  constructor
  · have h := c3_loadGoBoilerplate_replaces_every_year.1 zeroArgs "package foo\n" 2026
      "mygen" (by decide)
    rw [h]
    rfl
  · exact c3_loadGoBoilerplate_replaces_every_year.2.1 "Copyright YEAR." 2026
      (by decide) (by decide)

/-- C7: on a discovery environment where every registration succeeds,
`NewBuilder` registers every input specification in list order: recursive
discovery with the `"/..."` marker stripped for specifications carrying the
marker, single-directory discovery on the unchanged specification
otherwise. -/
theorem c7_newBuilder_registers_inputs (g : GeneratorArgs) (env : DiscoveryEnv)
    (h : ∀ d ∈ g.InputDirs, registerOutcome env d = none) :
    g.NewBuilder env = .ok
      { IncludeTestFiles := g.IncludeTestFile
        buildTags := [g.GeneratedBuildTag]
        registrations := g.InputDirs.map (fun d =>
          if hasSuffixStr d "/..." then RegCall.dirRecursive (trimSuffixStr d "/...")
          else RegCall.dir d) } := by
  unfold GeneratorArgs.NewBuilder addBuildTags parserNew
  rw [registerInputDirs_ok env g.InputDirs h]
  rfl

/-- Witness for C7: one recursive and one plain specification. -/
theorem c7_witness :
    GeneratorArgs.NewBuilder
        { zeroArgs with InputDirs := ["a/...", "b"], GeneratedBuildTag := "tag" }
        { addDirErr := fun _ => none, addDirRecursiveErr := fun _ => none } =
      .ok { IncludeTestFiles := false, buildTags := ["tag"],
            registrations := [RegCall.dirRecursive "a", RegCall.dir "b"] } := by
  have h := c7_newBuilder_registers_inputs
    { zeroArgs with InputDirs := ["a/...", "b"], GeneratedBuildTag := "tag" }
    { addDirErr := fun _ => none, addDirRecursiveErr := fun _ => none }
    (by intro d _; rw [registerOutcome]; split <;> rfl)
  rw [h]
  rfl

/-- C8: if the registration of specification `d` fails while every earlier
specification registered successfully, `NewBuilder` stops at `d`: it
returns the error wrapped with the offending specification, returns no
builder, and the result does not depend on the specifications after `d`. -/
theorem c8_newBuilder_fail_fast (g : GeneratorArgs) (env : DiscoveryEnv)
    (pre post : List String) (d msg : String)
    (hdirs : g.InputDirs = pre ++ d :: post)
    (hpre : ∀ d2 ∈ pre, registerOutcome env d2 = none)
    (hfail : registerOutcome env d = some msg) :
    g.NewBuilder env = .error ("unable to add directory \"" ++ d ++ "\": " ++ msg) := by
  unfold GeneratorArgs.NewBuilder addBuildTags parserNew
  rw [hdirs]
  exact registerInputDirs_err env d msg hfail pre hpre _ post

/-- Witness for C8: the second of three specifications fails; the error
names it and the third is never consulted. -/
theorem c8_witness :
    GeneratorArgs.NewBuilder { zeroArgs with InputDirs := ["ok1", "bad", "later"] }
        { addDirErr := fun d => if d = "bad" then some "boom" else none,
          addDirRecursiveErr := fun _ => none } =
      .error "unable to add directory \"bad\": boom" := by
  have h := c8_newBuilder_fail_fast
    { zeroArgs with InputDirs := ["ok1", "bad", "later"] }
    { addDirErr := fun d => if d = "bad" then some "boom" else none,
      addDirRecursiveErr := fun _ => none }
    ["ok1"] ["later"] "bad" "boom" (by decide) (by decide) (by decide)
  rw [h]
  rfl

/-- C2: when flag parsing is disabled and every stage succeeds — all input
directories register, context construction succeeds, the selection callback
returns the empty package set, and executing the empty set at the model's
output base succeeds — `Execute` returns success, and the context's
package-execution entry point is invoked exactly once, with the model's
output base and the empty package set. -/
theorem c2_execute_success (g : GeneratorArgs) (env : ExecEnv)
    (nameSystems : NameSystems) (defaultSystem : String)
    (pkgs : Context → GeneratorArgs → Packages)
    (hflags : g.defaultCommandLineFlags = false)
    (hreg : ∀ d ∈ g.InputDirs,
      registerOutcome { addDirErr := env.addDirErr,
                        addDirRecursiveErr := env.addDirRecursiveErr } d = none)
    (hctx : ∀ b, ∃ c, env.newContext b nameSystems defaultSystem = .ok c)
    (_hverify : g.VerifyOnly = false)
    (hpkgs : ∀ c, pkgs c g = [])
    (hexec : ∀ c, env.executePackagesErr c g.OutputBase [] = none) :
    g.Execute env nameSystems defaultSystem pkgs = (.ok (), [(g.OutputBase, [])]) := by
  unfold GeneratorArgs.Execute
  rw [hflags]
  simp only [Bool.false_eq_true, if_false]
  have hb : g.NewBuilder
      { addDirErr := env.addDirErr, addDirRecursiveErr := env.addDirRecursiveErr } =
      .ok { IncludeTestFiles := g.IncludeTestFile, buildTags := [g.GeneratedBuildTag],
            registrations := g.InputDirs.map registrationOf } := by
    unfold GeneratorArgs.NewBuilder addBuildTags parserNew
    rw [registerInputDirs_ok _ g.InputDirs hreg]
    rfl
  rw [hb]
  obtain ⟨c0, hc0⟩ := hctx
    { IncludeTestFiles := g.IncludeTestFile, buildTags := [g.GeneratedBuildTag],
      registrations := g.InputDirs.map registrationOf }
  simp only [hc0, hpkgs, hexec]

/-- Witness for C2: a concrete model with one input directory, verify-only
disabled, and a selection callback returning the empty set. -/
theorem c2_witness :
    GeneratorArgs.Execute { zeroArgs with InputDirs := ["pkg/a"], OutputBase := "out" }
        { flagParse := fun g => g,
          addDirErr := fun _ => none,
          addDirRecursiveErr := fun _ => none,
          newContext := fun _ _ _ => .ok { Verify := false },
          executePackagesErr := fun _ _ _ => none }
        ["public"] "public" (fun _ _ => []) =
      (.ok (), [("out", [])]) := by
  exact c2_execute_success
    { zeroArgs with InputDirs := ["pkg/a"], OutputBase := "out" }
    { flagParse := fun g => g,
      addDirErr := fun _ => none,
      addDirRecursiveErr := fun _ => none,
      newContext := fun _ _ _ => .ok { Verify := false },
      executePackagesErr := fun _ _ _ => none }
    ["public"] "public" (fun _ _ => [])
    rfl
    (by intro d _; rw [registerOutcome]; split <;> rfl)
    (fun b => ⟨{ Verify := false }, rfl⟩)
    rfl
    (fun c => rfl)
    (fun c => rfl)

end Gogogen
